import Mathlib

/-!
# noid_ros_controller : the control cycle of `NoidRobotHW`

Shallow embedding of `NoidRobotHW::readPos` and `NoidRobotHW::write`
(`src/noid_ros_controller/src/noid_robot_hardware.cpp`).

* A `std::vector<T>` is a `List T`; `v[j] = x` is `List.set`, a read `v[j]` of
  a number is `List.getD v j 0`.  The registry invariant `WellFormed` says that
  every per-joint vector has `number_of_angles_` entries, as `init` sizes them.
* `double` values are an arbitrary type `α` with a zero (`0.0`), the C++
  comparison `==` (a `BEq`, not assumed reflexive) and the conversion
  `toFloat` (double to `float` and back), which `readPos` applies.
* `int16_t` strokes are `Int`; this file performs no arithmetic on them.
* Everything the file calls but does not define (the two controllers, the
  angle/stroke converters, `MaskRobotCommand`, the limits interface) is a field
  of the environment `Env`.
-/

namespace noid_robot_hardware

/-- Control methods of a joint, the cases of the `switch` in `write`. -/
inductive ControlMethod where
  | POSITION
  | VELOCITY
  | EFFORT
  | POSITION_PID
  | VELOCITY_PID
deriving DecidableEq, Repr

/-- The members of a segment controller that `readPos` and `write` touch.
`port` stands for the serial device behind the controller. -/
structure Controller (κ : Type) where
  DOF_ : Nat
  is_open_ : Bool
  raw_data_ : List Int
  port : κ

/-- The controller methods called by `readPos` and `write`.  The two remap
methods fill their second argument (an output vector) and are given here as
functions returning the filled vector. -/
structure ControllerOps (κ : Type) where
  getPosition : Controller κ → Controller κ
  sendPosition : Nat → List Int → Controller κ → Controller κ
  remapAeroToRos : Controller κ → List Int → List Int → List Int
  remapRosToAero : Controller κ → List Int → List Int → List Int

/-- Everything `readPos` and `write` call without defining it.  The converters
and `MaskRobotCommand` update their first argument in place; they are functions
from the old contents and the input to the new contents.  `time_csec` is the
expression of line 317 on `OVERLAP_SCALE_` and `CONTROL_PERIOD_US_`. -/
structure Env (α κ σ : Type) where
  toFloat : α → α
  typef_Stroke2Angle : List α → List Int → List α
  typefcety_Stroke2Angle : List α → List Int → List α
  typef_Angle2Stroke : List Int → List α → List Int
  typefcety_Angle2Stroke : List Int → List α → List Int
  MaskRobotCommand : List Int → List Bool → List Int
  enforceLimits : Int → σ → List α → σ × List α
  time_csec : α → α → Nat
  upper : ControllerOps κ
  lower : ControllerOps κ

/-- The members of `NoidRobotHW` read or written by `readPos` and `write`. -/
structure NoidRobotHW (α κ σ : Type) where
  robot_model : String
  CONTROL_PERIOD_US_ : α
  OVERLAP_SCALE_ : α
  controller_upper_ : Controller κ
  controller_lower_ : Controller κ
  number_of_angles_ : Nat
  joint_control_methods_ : List ControlMethod
  joint_position_ : List α
  joint_velocity_ : List α
  joint_effort_ : List α
  joint_position_command_ : List α
  prev_ref_positions_ : List α
  initialized_flag_ : Bool
  pj_sat_interface_ : σ

/-- The loop `for (j = 0; j < n; j++) body(j)` on a loop state. -/
def forLoop {β : Type} : Nat → (Nat → β → β) → β → β
  | 0, _, s => s
  | n + 1, body, s => body n (forLoop n body s)

/-- Every per-joint vector has `number_of_angles_` entries (lines 94, 118-125). -/
def WellFormed {α κ σ : Type} (s : NoidRobotHW α κ σ) : Prop :=
  s.joint_control_methods_.length = s.number_of_angles_ ∧
  s.joint_position_.length = s.number_of_angles_ ∧
  s.joint_velocity_.length = s.number_of_angles_ ∧
  s.joint_effort_.length = s.number_of_angles_ ∧
  s.joint_position_command_.length = s.number_of_angles_ ∧
  s.prev_ref_positions_.length = s.number_of_angles_

instance {α κ σ : Type} (s : NoidRobotHW α κ σ) : Decidable (WellFormed s) := by
  unfold WellFormed
  infer_instance

section Cycle

variable {α κ σ : Type} [Zero α] [BEq α]

/-- Lines 190-203 of `readPos`: the fetch on both controllers, done only when
`update` is set.  The two threads work on different controllers and are joined
before the function goes on. -/
def fetch (env : Env α κ σ) (update : Bool) (s : NoidRobotHW α κ σ) : NoidRobotHW α κ σ :=
  if update then
    { s with
      controller_upper_ := env.upper.getPosition s.controller_upper_
      controller_lower_ := env.lower.getPosition s.controller_lower_ }
  else s

/-- Lines 205-215 of `readPos`: `act_strokes`, the remapped raw data of the
upper controller followed by that of the lower one. -/
def actStrokes (env : Env α κ σ) (s : NoidRobotHW α κ σ) : List Int :=
  let act_strokes : List Int := []
  let act_upper_strokes : List Int := List.replicate s.controller_upper_.DOF_ 0
  let act_lower_strokes : List Int := List.replicate s.controller_lower_.DOF_ 0
  let act_upper_strokes :=
    env.upper.remapAeroToRos s.controller_upper_ s.controller_upper_.raw_data_ act_upper_strokes
  let act_lower_strokes :=
    env.lower.remapAeroToRos s.controller_lower_ s.controller_lower_.raw_data_ act_lower_strokes
  (act_strokes ++ act_upper_strokes) ++ act_lower_strokes

/-- Lines 217-223 of `readPos`: `act_positions`, sized to `number_of_angles_`
(zeros) and filled by the converter of the robot model, if the model is known. -/
def actPositions (env : Env α κ σ) (s : NoidRobotHW α κ σ) : List α :=
  let act_positions : List α := List.replicate s.number_of_angles_ 0
  if s.robot_model = "typeF" then env.typef_Stroke2Angle act_positions (actStrokes env s)
  else if s.robot_model = "typeFCETy" then
    env.typefcety_Stroke2Angle act_positions (actStrokes env s)
  else act_positions

/-- Lines 227-234 of `readPos`: the body of the loop storing the sensed state. -/
def storeSensed (env : Env α κ σ) (act_positions : List α) (j : Nat)
    (s : NoidRobotHW α κ σ) : NoidRobotHW α κ σ :=
  let position := env.toFloat (act_positions.getD j 0)
  let velocity := env.toFloat 0
  { s with
    joint_position_ := s.joint_position_.set j position
    joint_velocity_ := s.joint_velocity_.set j velocity
    joint_effort_ := s.joint_effort_.set j 0 }

/-- Line 238 of `readPos`: the body of the seeding loop. -/
def seedCommand (j : Nat) (s : NoidRobotHW α κ σ) : NoidRobotHW α κ σ :=
  let prev := s.prev_ref_positions_.set j (s.joint_position_.getD j 0)
  { s with
    prev_ref_positions_ := prev
    joint_position_command_ := s.joint_position_command_.set j (prev.getD j 0) }

/-- The method `NoidRobotHW::readPos(time, period, update)` (lines 187-245). -/
def NoidRobotHW.readPos (env : Env α κ σ) (_period : Int) (update : Bool)
    (s : NoidRobotHW α κ σ) : NoidRobotHW α κ σ :=
  let s := fetch env update s
  let act_positions := actPositions env s
  let s := forLoop s.number_of_angles_ (storeSensed env act_positions) s
  if !s.initialized_flag_ then
    let s := forLoop s.number_of_angles_ seedCommand s
    { s with initialized_flag_ := true }
  else s

/-- Lines 257-282 of `write`: `ref_positions`, sized to `number_of_angles_`
(zeros); only the case `POSITION` assigns to it. -/
def refPositions (number_of_angles_ : Nat) (joint_control_methods_ : List ControlMethod)
    (joint_position_command_ : List α) : List α :=
  forLoop number_of_angles_
    (fun j ref_positions =>
      match joint_control_methods_[j]? with
      | some ControlMethod.POSITION => ref_positions.set j (joint_position_command_.getD j 0)
      | some ControlMethod.VELOCITY => ref_positions
      | some ControlMethod.EFFORT => ref_positions
      | some ControlMethod.POSITION_PID => ref_positions
      | some ControlMethod.VELOCITY_PID => ref_positions
      | none => ref_positions)
    (List.replicate number_of_angles_ 0)

/-- Lines 284-293 of `write`: `mask_positions` (filled with `true`) and the
update of `prev_ref_positions_`; the result is the pair of both vectors. -/
def maskLoop (number_of_angles_ : Nat) (ref_positions prev_ref_positions_ : List α) :
    List Bool × List α :=
  forLoop number_of_angles_
    (fun i st =>
      let tmp := ref_positions.getD i 0
      let mask_positions := if tmp == st.2.getD i 0 then st.1.set i false else st.1
      (mask_positions, st.2.set i tmp))
    (List.replicate number_of_angles_ true, prev_ref_positions_)

/-- The local vectors of `write` at the point where the strokes are sent. -/
structure WriteLocals (α : Type) where
  ref_positions : List α
  mask_positions : List Bool
  ref_strokes : List Int
  snt_strokes : List Int
  upper_strokes : List Int
  lower_strokes : List Int
  time_csec : Nat

/-- Line 254 of `write`: `pj_sat_interface_.enforceLimits(period)`, which
rewrites the position commands in place. -/
def enforce (env : Env α κ σ) (period : Int) (s : NoidRobotHW α κ σ) : NoidRobotHW α κ σ :=
  let r := env.enforceLimits period s.pj_sat_interface_ s.joint_position_command_
  { s with pj_sat_interface_ := r.1, joint_position_command_ := r.2 }

/-- Lines 254-317 of `write`: the local vectors computed before the strokes
are sent, from the state `s` the method is called on. -/
def writeLocals (env : Env α κ σ) (period : Int) (s : NoidRobotHW α κ σ) : WriteLocals α :=
  let s := enforce env period s
  let ref_positions :=
    refPositions s.number_of_angles_ s.joint_control_methods_ s.joint_position_command_
  let mask_positions := (maskLoop s.number_of_angles_ ref_positions s.prev_ref_positions_).1
  let ref_strokes : List Int :=
    List.replicate (s.controller_upper_.DOF_ + s.controller_lower_.DOF_) 0
  let ref_strokes :=
    if s.robot_model = "typeF" then env.typef_Angle2Stroke ref_strokes ref_positions
    else if s.robot_model = "typeFCETy" then env.typefcety_Angle2Stroke ref_strokes ref_positions
    else ref_strokes
  let snt_strokes := env.MaskRobotCommand ref_strokes mask_positions
  let aero_array_size := 30
  let upper_strokes : List Int := List.replicate aero_array_size 0
  let lower_strokes : List Int := List.replicate aero_array_size 0
  let upper_strokes :=
    if s.controller_upper_.is_open_ then
      env.upper.remapRosToAero s.controller_upper_ snt_strokes upper_strokes
    else env.upper.remapRosToAero s.controller_upper_ ref_strokes upper_strokes
  let lower_strokes :=
    if s.controller_lower_.is_open_ then
      env.lower.remapRosToAero s.controller_lower_ snt_strokes lower_strokes
    else env.lower.remapRosToAero s.controller_lower_ ref_strokes lower_strokes
  { ref_positions := ref_positions
    mask_positions := mask_positions
    ref_strokes := ref_strokes
    snt_strokes := snt_strokes
    upper_strokes := upper_strokes
    lower_strokes := lower_strokes
    time_csec := env.time_csec s.OVERLAP_SCALE_ s.CONTROL_PERIOD_US_ }

/-- Lines 254-332 of `write`: the state after both `sendPosition` calls have
been joined, before the closing `readPos`. -/
def writeDispatch (env : Env α κ σ) (period : Int) (s : NoidRobotHW α κ σ) :
    NoidRobotHW α κ σ :=
  let w := writeLocals env period s
  let s := enforce env period s
  let prev := (maskLoop s.number_of_angles_ w.ref_positions s.prev_ref_positions_).2
  { s with
    prev_ref_positions_ := prev
    controller_upper_ := env.upper.sendPosition w.time_csec w.upper_strokes s.controller_upper_
    controller_lower_ := env.lower.sendPosition w.time_csec w.lower_strokes s.controller_lower_ }

/-- The method `NoidRobotHW::write(time, period)` (lines 252-338). -/
def NoidRobotHW.write (env : Env α κ σ) (period : Int) (s : NoidRobotHW α κ σ) :
    NoidRobotHW α κ σ :=
  NoidRobotHW.readPos env period false (writeDispatch env period s)

end Cycle

namespace Spec

/-- Modelled from the spec: `noid::common::MaskRobotCommand`, which `write`
calls on line 304 and which is defined outside this file.  The spec (4.4,
step 5) describes it: channels marked "do not send" are replaced with a
sentinel, the other channels keep their value.  The sentinel is fixed by the
protocol and is a parameter here; a channel without a mask entry is kept. -/
def MaskRobotCommand (SENTINEL : Int) : List Int → List Bool → List Int
  | [], _ => []
  | s :: strokes, [] => s :: strokes
  | s :: strokes, m :: mask =>
    (if m then s else SENTINEL) :: MaskRobotCommand SENTINEL strokes mask

end Spec

/-! ## A concrete environment for the examples

The examples run the cycle on a small robot whose `double` values are integers
of magnitude below `2 ^ 24`; `float` represents these exactly, so `toFloat`
changes nothing there. -/

/-- The serial device of the examples: the strokes it reports on the next
`getPosition`, and a record of the calls it has served. -/
structure Port where
  sample : List Int
  fetches : Nat
  sent : List (Nat × List Int)
deriving DecidableEq, Repr

/-- Controller methods of the examples.  `getPosition` copies the sample of
the device into `raw_data_`; `sendPosition` hands the strokes to the device;
the remaps copy channel by channel, the canonical channels of the segment
starting at `offset`. -/
def exampleOps (offset : Nat) : ControllerOps Port where
  getPosition := fun c =>
    { c with raw_data_ := c.port.sample, port := { c.port with fetches := c.port.fetches + 1 } }
  sendPosition := fun t d c => { c with port := { c.port with sent := c.port.sent ++ [(t, d)] } }
  remapAeroToRos := fun _ raw out => (List.range out.length).map (fun i => raw.getD i 0)
  remapRosToAero := fun c ros out =>
    (List.range out.length).map
      (fun i => if i < c.DOF_ then ros.getD (offset + i) 0 else out.getD i 0)

/-- The sentinel of the examples (0x7FFF). -/
def exampleSentinel : Int := 32767

/-- Environment of the examples: an angle is twice its stroke, a stroke is half
its angle (rounded down), no joint limit applies, the upper segment has two
canonical channels, and the move time is the product of its two arguments over
10000, cut to 16 bits. -/
def exampleEnv : Env Int Port Unit where
  toFloat := fun x => x
  typef_Stroke2Angle := fun angles strokes =>
    (List.range angles.length).map (fun j => 2 * strokes.getD j 0)
  typefcety_Stroke2Angle := fun angles strokes =>
    (List.range angles.length).map (fun j => 2 * strokes.getD j 0)
  typef_Angle2Stroke := fun strokes angles =>
    (List.range strokes.length).map (fun i => angles.getD i 0 / 2)
  typefcety_Angle2Stroke := fun strokes angles =>
    (List.range strokes.length).map (fun i => angles.getD i 0 / 2)
  MaskRobotCommand := Spec.MaskRobotCommand exampleSentinel
  enforceLimits := fun _ limits cmd => (limits, cmd)
  time_csec := fun scale period => ((scale * period) / 10000).toNat % 65536
  upper := exampleOps 0
  lower := exampleOps 2

/-- A controller of the examples with `dof` channels, holding `raw` in
`raw_data_` while its device would report `sample`. -/
def exampleController (dof : Nat) (isOpen : Bool) (raw sample : List Int) : Controller Port :=
  { DOF_ := dof, is_open_ := isOpen, raw_data_ := raw,
    port := { sample := sample, fetches := 0, sent := [] } }

/-- A registry of three `POSITION` joints, two upper and one lower, as `init`
leaves it before its first `readPos` (all vectors zero, not yet seeded); the
devices report the strokes `[1, 2]` and `[3]`. -/
def freshRegistry (model : String) : NoidRobotHW Int Port Unit :=
  { robot_model := model
    CONTROL_PERIOD_US_ := 50000
    OVERLAP_SCALE_ := 3
    controller_upper_ := exampleController 2 true [0, 0] [1, 2]
    controller_lower_ := exampleController 1 true [0] [3]
    number_of_angles_ := 3
    joint_control_methods_ :=
      [ControlMethod.POSITION, ControlMethod.POSITION, ControlMethod.POSITION]
    joint_position_ := [0, 0, 0]
    joint_velocity_ := [0, 0, 0]
    joint_effort_ := [0, 0, 0]
    joint_position_command_ := [0, 0, 0]
    prev_ref_positions_ := [0, 0, 0]
    initialized_flag_ := false
    pj_sat_interface_ := () }

/-- The registry after the `readPos` of `init` (line 127). -/
def seededRegistry : NoidRobotHW Int Port Unit :=
  NoidRobotHW.readPos exampleEnv 0 true (freshRegistry "typeF")

/-- The seeded registry (sensed positions `[2, 4, 6]`) with the upper
controller holding `[5, 2]` in its `raw_data_`. -/
def staleRegistry : NoidRobotHW Int Port Unit :=
  { seededRegistry with
    controller_upper_ := { seededRegistry.controller_upper_ with raw_data_ := [5, 2] } }

/-- The seeded registry after the robot has moved: the upper device would now
report `[7, 2]`, while `raw_data_` still holds `[1, 2]`. -/
def movedRegistry : NoidRobotHW Int Port Unit :=
  { seededRegistry with
    controller_upper_ :=
      { seededRegistry.controller_upper_ with
        port := { seededRegistry.controller_upper_.port with sample := [7, 2] } } }

/-- The seeded registry with previous targets `[100, 100, 100]` and position
commands `[100, 105, 100]`. -/
def snapshotRegistry : NoidRobotHW Int Port Unit :=
  { seededRegistry with
    prev_ref_positions_ := [100, 100, 100]
    joint_position_command_ := [100, 105, 100] }

/-- The seeded registry with the position command of joint 0 set to `100`. -/
def firstCycle : NoidRobotHW Int Port Unit :=
  { seededRegistry with joint_position_command_ := [100, 4, 6] }

/-- The registry after a `write` on `firstCycle`, with the position command of
joint 0 moved on to `101` (which encodes to the same stroke, `50`). -/
def secondCycle : NoidRobotHW Int Port Unit :=
  { NoidRobotHW.write exampleEnv 0 firstCycle with joint_position_command_ := [101, 4, 6] }

/-- The seeded registry with joint 1 switched to the control method `VELOCITY`. -/
def velocityRegistry : NoidRobotHW Int Port Unit :=
  { seededRegistry with
    joint_control_methods_ :=
      [ControlMethod.POSITION, ControlMethod.VELOCITY, ControlMethod.POSITION] }

/-! ## Auxiliary facts about the loops -/

theorem prefix_set {β : Type} (f : Nat → β) (m : Nat) (v : List β) (x : β)
    (h : m < v.length) :
    ((List.range m).map f ++ v.drop m).set m x
      = (List.range m).map f ++ x :: v.drop (m + 1) := by
  rw [List.set_append]
  simp only [List.length_map, List.length_range, Nat.lt_irrefl, if_false, Nat.sub_self]
  rw [List.drop_eq_getElem_cons h, List.set_cons_zero]

theorem prefix_getD {β : Type} (f : Nat → β) (m : Nat) (v : List β) (d : β) :
    ((List.range m).map f ++ v.drop m).getD m d = v.getD m d := by
  simp [List.getD_eq_getElem?_getD, List.getElem?_append_right]

theorem prefix_step {β : Type} (f : Nat → β) (m : Nat) (v : List β) :
    (List.range m).map f ++ f m :: v.drop (m + 1)
      = (List.range (m + 1)).map f ++ v.drop (m + 1) := by
  simp [List.range_succ]

theorem forLoop_set {β : Type} (f : Nat → β) (m : Nat) (v : List β) (h : m ≤ v.length) :
    forLoop m (fun j w => w.set j (f j)) v = (List.range m).map f ++ v.drop m := by
  induction m with
  | zero => simp [forLoop]
  | succ m ih =>
    have hm : m < v.length := h
    simp only [forLoop]
    rw [ih (Nat.le_of_lt hm), prefix_set f m v _ hm, prefix_step]

theorem map_range_getD {β : Type} (d : β) (v : List β) :
    (List.range v.length).map (fun j => v.getD j d) = v := by
  apply List.ext_getElem
  · simp
  · intro i h1 h2
    simp [List.getD_eq_getElem?_getD, List.getElem?_eq_getElem h2]

theorem map_range_getD_apply {β : Type} (f : Nat → β) (n j : Nat) (d : β) (h : j < n) :
    ((List.range n).map f).getD j d = f j := by
  simp [List.getD_eq_getElem?_getD, h]

theorem prefix_keep {β : Type} (f : Nat → β) (m : Nat) (v : List β) (h : m < v.length)
    (hv : v[m] = f m) :
    (List.range m).map f ++ v.drop m = (List.range (m + 1)).map f ++ v.drop (m + 1) := by
  rw [List.drop_eq_getElem_cons h, hv, prefix_step]

theorem prefix_succ_getD {β : Type} (f : Nat → β) (m : Nat) (rest : List β) (d : β) :
    ((List.range (m + 1)).map f ++ rest).getD m d = f m := by
  rw [List.range_succ, List.map_append, List.append_assoc, List.getD_eq_getElem?_getD,
    List.getElem?_append_right (by simp)]
  simp

theorem fetch_fields {α κ σ : Type} (env : Env α κ σ) (update : Bool) (s : NoidRobotHW α κ σ) :
    (fetch env update s).number_of_angles_ = s.number_of_angles_ ∧
    (fetch env update s).robot_model = s.robot_model ∧
    (fetch env update s).joint_position_ = s.joint_position_ ∧
    (fetch env update s).joint_velocity_ = s.joint_velocity_ ∧
    (fetch env update s).joint_effort_ = s.joint_effort_ ∧
    (fetch env update s).joint_position_command_ = s.joint_position_command_ ∧
    (fetch env update s).prev_ref_positions_ = s.prev_ref_positions_ ∧
    (fetch env update s).initialized_flag_ = s.initialized_flag_ := by
  unfold fetch
  split <;> simp

theorem fetch_frame {α κ σ : Type} (env : Env α κ σ) (update : Bool) (s : NoidRobotHW α κ σ) :
    (fetch env update s).joint_control_methods_ = s.joint_control_methods_ ∧
    (fetch env update s).pj_sat_interface_ = s.pj_sat_interface_ := by
  unfold fetch
  split <;> exact ⟨rfl, rfl⟩

section LoopFacts

variable {α κ σ : Type} [Zero α]

theorem forLoop_storeSensed (env : Env α κ σ) (act : List α) (m : Nat)
    (s : NoidRobotHW α κ σ) :
    forLoop m (storeSensed env act) s =
      { s with
        joint_position_ :=
          forLoop m (fun j w => w.set j (env.toFloat (act.getD j 0))) s.joint_position_
        joint_velocity_ := forLoop m (fun j w => w.set j (env.toFloat 0)) s.joint_velocity_
        joint_effort_ := forLoop m (fun j w => w.set j (0 : α)) s.joint_effort_ } := by
  induction m with
  | zero => rfl
  | succ m ih =>
    simp only [forLoop]
    rw [ih]
    rfl

theorem forLoop_seedCommand (m : Nat) (s : NoidRobotHW α κ σ)
    (hp : m ≤ s.prev_ref_positions_.length) (hc : m ≤ s.joint_position_command_.length) :
    forLoop m seedCommand s =
      { s with
        prev_ref_positions_ :=
          (List.range m).map (fun j => s.joint_position_.getD j 0)
            ++ s.prev_ref_positions_.drop m
        joint_position_command_ :=
          (List.range m).map (fun j => s.joint_position_.getD j 0)
            ++ s.joint_position_command_.drop m } := by
  induction m with
  | zero => simp [forLoop]
  | succ m ih =>
    have hp1 : m < s.prev_ref_positions_.length := hp
    have hc1 : m < s.joint_position_command_.length := hc
    simp only [forLoop]
    rw [ih (Nat.le_of_lt hp1) (Nat.le_of_lt hc1)]
    simp only [seedCommand]
    rw [prefix_set _ m _ _ hp1, prefix_set _ m _ _ hc1, prefix_step, prefix_succ_getD,
      prefix_step]

theorem forLoop_seedCommand_controllers (m : Nat) (s : NoidRobotHW α κ σ) :
    (forLoop m seedCommand s).controller_upper_ = s.controller_upper_ ∧
    (forLoop m seedCommand s).controller_lower_ = s.controller_lower_ := by
  induction m with
  | zero => exact ⟨rfl, rfl⟩
  | succ m ih =>
    simp only [forLoop, seedCommand]
    exact ih

theorem readPos_controllers (env : Env α κ σ) (period : Int) (update : Bool)
    (s : NoidRobotHW α κ σ) :
    (NoidRobotHW.readPos env period update s).controller_upper_
      = (fetch env update s).controller_upper_ ∧
    (NoidRobotHW.readPos env period update s).controller_lower_
      = (fetch env update s).controller_lower_ := by
  simp only [NoidRobotHW.readPos]
  rw [forLoop_storeSensed]
  split
  · exact forLoop_seedCommand_controllers _ _
  · exact ⟨rfl, rfl⟩

theorem refPositions_eq (n : Nat) (methods : List ControlMethod) (cmd : List α) :
    refPositions n methods cmd =
      (List.range n).map (fun j =>
        if methods[j]? = some ControlMethod.POSITION then cmd.getD j 0 else 0) := by
  have key : ∀ m, m ≤ n →
      forLoop m
        (fun j (ref_positions : List α) =>
          match methods[j]? with
          | some ControlMethod.POSITION => ref_positions.set j (cmd.getD j 0)
          | some ControlMethod.VELOCITY => ref_positions
          | some ControlMethod.EFFORT => ref_positions
          | some ControlMethod.POSITION_PID => ref_positions
          | some ControlMethod.VELOCITY_PID => ref_positions
          | none => ref_positions)
        (List.replicate n (0 : α)) =
      (List.range m).map (fun j =>
        if methods[j]? = some ControlMethod.POSITION then cmd.getD j 0 else 0)
        ++ (List.replicate n (0 : α)).drop m := by
    intro m
    induction m with
    | zero => intro _; simp [forLoop]
    | succ m ih =>
      intro hm
      have hm1 : m < (List.replicate n (0 : α)).length := by simpa using hm
      simp only [forLoop]
      rw [ih (Nat.le_of_lt hm)]
      rcases hj : methods[m]? with _ | c
      · exact prefix_keep _ m _ hm1 (by simp [hj])
      · cases c
        · simp only []
          rw [prefix_set _ m _ _ hm1]
          have := prefix_step (fun j =>
            if methods[j]? = some ControlMethod.POSITION then cmd.getD j 0 else 0) m
            (List.replicate n (0 : α))
          simp only [hj, if_true] at this
          exact this
        all_goals exact prefix_keep _ m _ hm1 (by simp [hj])
  have h := key n (Nat.le_refl n)
  simp only [refPositions]
  rw [h]
  simp

theorem maskLoop_eq [BEq α] (n : Nat) (ref prev : List α) (hp : n ≤ prev.length) :
    maskLoop n ref prev =
      ((List.range n).map (fun i => !(ref.getD i 0 == prev.getD i 0)),
       (List.range n).map (fun i => ref.getD i 0) ++ prev.drop n) := by
  have key : ∀ m, m ≤ n →
      forLoop m
        (fun i (st : List Bool × List α) =>
          let tmp := ref.getD i 0
          let mask_positions := if tmp == st.2.getD i 0 then st.1.set i false else st.1
          (mask_positions, st.2.set i tmp))
        (List.replicate n true, prev) =
      ((List.range m).map (fun i => !(ref.getD i 0 == prev.getD i 0))
          ++ (List.replicate n true).drop m,
       (List.range m).map (fun i => ref.getD i 0) ++ prev.drop m) := by
    intro m
    induction m with
    | zero => intro _; simp [forLoop]
    | succ m ih =>
      intro hm
      have hm1 : m < (List.replicate n true).length := by simpa using hm
      have hm2 : m < prev.length := Nat.lt_of_lt_of_le hm hp
      simp only [forLoop]
      rw [ih (Nat.le_of_lt hm)]
      simp only []
      rw [prefix_getD, prefix_set _ m _ _ hm2, prefix_step]
      by_cases hc : (ref.getD m 0 == prev.getD m 0) = true
      · rw [if_pos hc, prefix_set _ m _ _ hm1]
        have := prefix_step (fun i => !(ref.getD i 0 == prev.getD i 0)) m
          (List.replicate n true)
        simp only [hc, Bool.not_true] at this
        rw [this]
      · rw [if_neg hc]
        simp only [Bool.not_eq_true] at hc
        rw [prefix_keep _ m _ hm1 (by rw [List.getElem_replicate, hc]; rfl)]
  have h := key n (Nat.le_refl n)
  simp only [maskLoop]
  rw [h]
  simp

theorem sensed_length (env : Env α κ σ) (act : List α) (n : Nat) :
    ((List.range n).map (fun j => env.toFloat (act.getD j 0))).length = n := by
  simp

/-- Closed form of `readPos` on a well-formed registry. -/
theorem readPos_eq (env : Env α κ σ) (period : Int) (update : Bool)
    (s : NoidRobotHW α κ σ) (hwf : WellFormed s) :
    NoidRobotHW.readPos env period update s =
      let s1 := fetch env update s
      let pos := (List.range s.number_of_angles_).map
        (fun j => env.toFloat ((actPositions env s1).getD j 0))
      let s2 : NoidRobotHW α κ σ :=
        { s1 with
          joint_position_ := pos
          joint_velocity_ := (List.range s.number_of_angles_).map (fun _ => env.toFloat 0)
          joint_effort_ := (List.range s.number_of_angles_).map (fun _ => (0 : α)) }
      if s.initialized_flag_ then s2
      else { s2 with
             prev_ref_positions_ := pos
             joint_position_command_ := pos
             initialized_flag_ := true } := by
  obtain ⟨_, hpos, hvel, heff, hcmd, hprev⟩ := hwf
  obtain ⟨fn, _, fpos, fvel, feff, fcmd, fprev, fini⟩ := fetch_fields env update s
  simp only [NoidRobotHW.readPos]
  rw [forLoop_storeSensed]
  simp only [fn, fpos, fvel, feff, fini]
  rw [forLoop_set _ _ _ (Nat.le_of_eq hpos.symm), forLoop_set _ _ _ (Nat.le_of_eq hvel.symm),
    forLoop_set _ _ _ (Nat.le_of_eq heff.symm)]
  rw [← hpos, List.drop_length, hpos, ← hvel, List.drop_length, hvel, ← heff,
    List.drop_length, heff]
  simp only [List.append_nil]
  cases hi : s.initialized_flag_
  · simp only [Bool.not_false, if_true, Bool.false_eq_true, if_false]
    rw [forLoop_seedCommand _ _ (by simp [fprev, hprev]) (by simp [fcmd, hcmd])]
    simp only [fprev, fcmd]
    rw [← hprev, List.drop_length, hprev, ← hcmd, List.drop_length, hcmd]
    simp only [List.append_nil]
    have hmap := map_range_getD (0 : α) ((List.range s.number_of_angles_).map
        (fun j => env.toFloat ((actPositions env (fetch env update s)).getD j 0)))
    rw [sensed_length] at hmap
    rw [hmap]
  · simp

theorem readPos_seeds (env : Env α κ σ) (period : Int) (update : Bool)
    (s : NoidRobotHW α κ σ) (hwf : WellFormed s) (hinit : s.initialized_flag_ = false) :
    (NoidRobotHW.readPos env period update s).joint_position_command_
        = (NoidRobotHW.readPos env period update s).joint_position_ ∧
    (NoidRobotHW.readPos env period update s).prev_ref_positions_
        = (NoidRobotHW.readPos env period update s).joint_position_ ∧
    (NoidRobotHW.readPos env period update s).joint_position_.length = s.number_of_angles_ ∧
    (NoidRobotHW.readPos env period update s).initialized_flag_ = true ∧
    (NoidRobotHW.readPos env period update s).number_of_angles_ = s.number_of_angles_ ∧
    (NoidRobotHW.readPos env period update s).joint_control_methods_
        = s.joint_control_methods_ ∧
    (NoidRobotHW.readPos env period update s).pj_sat_interface_ = s.pj_sat_interface_ := by
  obtain ⟨fn, _⟩ := fetch_fields env update s
  obtain ⟨fm, fp⟩ := fetch_frame env update s
  rw [readPos_eq env period update s hwf]
  simp [hinit, fn, fm, fp]

end LoopFacts

section WriteFacts

variable {α κ σ : Type} [Zero α]

theorem readPos_keeps_commands (env : Env α κ σ) (period : Int) (update : Bool)
    (s : NoidRobotHW α κ σ) (hinit : s.initialized_flag_ = true) :
    (NoidRobotHW.readPos env period update s).prev_ref_positions_ = s.prev_ref_positions_ ∧
    (NoidRobotHW.readPos env period update s).joint_position_command_
      = s.joint_position_command_ ∧
    (NoidRobotHW.readPos env period update s).number_of_angles_ = s.number_of_angles_ ∧
    (NoidRobotHW.readPos env period update s).joint_control_methods_
      = s.joint_control_methods_ ∧
    (NoidRobotHW.readPos env period update s).initialized_flag_ = true := by
  obtain ⟨fn, _, _, _, _, fcmd, fprev, fini⟩ := fetch_fields env update s
  simp only [NoidRobotHW.readPos]
  rw [forLoop_storeSensed]
  simp [fini, hinit, fcmd, fprev, fn]
  unfold fetch
  split <;> rfl

theorem spec_mask_length (sentinel : Int) (strokes : List Int) (mask : List Bool) :
    (Spec.MaskRobotCommand sentinel strokes mask).length = strokes.length := by
  induction strokes generalizing mask with
  | nil => simp [Spec.MaskRobotCommand]
  | cons x xs ih =>
    cases mask with
    | nil => simp [Spec.MaskRobotCommand]
    | cons m ms => simp [Spec.MaskRobotCommand, ih ms]

theorem spec_mask_getD (sentinel : Int) (strokes : List Int) (mask : List Bool) (i : Nat)
    (h : i < strokes.length) :
    (Spec.MaskRobotCommand sentinel strokes mask).getD i 0
      = if mask.getD i true = false then sentinel else strokes.getD i 0 := by
  induction strokes generalizing mask i with
  | nil => simp at h
  | cons x xs ih =>
    cases mask with
    | nil => simp [Spec.MaskRobotCommand]
    | cons m ms =>
      cases i with
      | zero => cases m <;> simp [Spec.MaskRobotCommand]
      | succ i =>
        have hi : i < xs.length := by simpa using h
        simpa [Spec.MaskRobotCommand] using ih ms i hi

variable [BEq α]

theorem writeLocals_ref_positions (env : Env α κ σ) (period : Int) (s : NoidRobotHW α κ σ) :
    (writeLocals env period s).ref_positions =
      (List.range s.number_of_angles_).map (fun j =>
        if s.joint_control_methods_[j]? = some ControlMethod.POSITION then
          (enforce env period s).joint_position_command_.getD j 0
        else 0) := by
  simp only [writeLocals]
  rw [refPositions_eq]
  rfl

theorem writeLocals_ref_length (env : Env α κ σ) (period : Int) (s : NoidRobotHW α κ σ) :
    (writeLocals env period s).ref_positions.length = s.number_of_angles_ := by
  rw [writeLocals_ref_positions]
  simp

theorem writeLocals_mask (env : Env α κ σ) (period : Int) (s : NoidRobotHW α κ σ)
    (hp : s.number_of_angles_ ≤ s.prev_ref_positions_.length) :
    (writeLocals env period s).mask_positions =
      (List.range s.number_of_angles_).map (fun i =>
        !((writeLocals env period s).ref_positions.getD i 0
            == s.prev_ref_positions_.getD i 0)) := by
  have h := maskLoop_eq s.number_of_angles_ (writeLocals env period s).ref_positions
    s.prev_ref_positions_ hp
  have e : (writeLocals env period s).mask_positions =
      (maskLoop s.number_of_angles_ (writeLocals env period s).ref_positions
        s.prev_ref_positions_).1 := rfl
  rw [e, h]

theorem writeDispatch_prev (env : Env α κ σ) (period : Int) (s : NoidRobotHW α κ σ)
    (hp : s.prev_ref_positions_.length = s.number_of_angles_) :
    (writeDispatch env period s).prev_ref_positions_ = (writeLocals env period s).ref_positions := by
  have h := maskLoop_eq s.number_of_angles_ (writeLocals env period s).ref_positions
    s.prev_ref_positions_ (Nat.le_of_eq hp.symm)
  have e : (writeDispatch env period s).prev_ref_positions_ =
      (maskLoop s.number_of_angles_ (writeLocals env period s).ref_positions
        s.prev_ref_positions_).2 := rfl
  rw [e, h]
  simp only []
  rw [← hp, List.drop_length, hp, List.append_nil]
  have hm := map_range_getD (0 : α) (writeLocals env period s).ref_positions
  rw [writeLocals_ref_length] at hm
  exact hm

theorem write_prev (env : Env α κ σ) (period : Int) (s : NoidRobotHW α κ σ)
    (hp : s.prev_ref_positions_.length = s.number_of_angles_)
    (hinit : s.initialized_flag_ = true) :
    (NoidRobotHW.write env period s).prev_ref_positions_
      = (writeLocals env period s).ref_positions ∧
    (NoidRobotHW.write env period s).number_of_angles_ = s.number_of_angles_ ∧
    (NoidRobotHW.write env period s).joint_control_methods_ = s.joint_control_methods_ ∧
    (NoidRobotHW.write env period s).initialized_flag_ = true := by
  have hd : (writeDispatch env period s).initialized_flag_ = true := hinit
  obtain ⟨h1, _, h3, h4, h5⟩ :=
    readPos_keeps_commands env period false (writeDispatch env period s) hd
  refine ⟨?_, ?_, ?_, ?_⟩
  · show (NoidRobotHW.readPos env period false (writeDispatch env period s)).prev_ref_positions_ = _
    rw [h1, writeDispatch_prev env period s hp]
  · exact h3
  · exact h4
  · exact h5

end WriteFacts

section ReadPhase

variable {α κ σ : Type} [Zero α]

/-- C1. No-jump seeding: on a well-formed registry whose initialized flag is
false, one read phase (with or without fetch) leaves every joint with its
position command and its previous-command snapshot equal to its sensed
position, and sets the initialized flag. -/
theorem C1_readPos_seeds_commands (env : Env α κ σ) (period : Int) (update : Bool)
    (s : NoidRobotHW α κ σ) (hwf : WellFormed s) (hinit : s.initialized_flag_ = false) :
    (NoidRobotHW.readPos env period update s).joint_position_command_
        = (NoidRobotHW.readPos env period update s).joint_position_ ∧
    (NoidRobotHW.readPos env period update s).prev_ref_positions_
        = (NoidRobotHW.readPos env period update s).joint_position_ ∧
    (NoidRobotHW.readPos env period update s).joint_position_.length = s.number_of_angles_ ∧
    (NoidRobotHW.readPos env period update s).initialized_flag_ = true := by
  obtain ⟨h1, h2, h3, h4, _⟩ := readPos_seeds env period update s hwf hinit
  exact ⟨h1, h2, h3, h4⟩

theorem C1_readPos_seeds_commands_witness :
    WellFormed (freshRegistry "typeF") ∧ (freshRegistry "typeF").initialized_flag_ = false ∧
    (NoidRobotHW.readPos exampleEnv 0 true (freshRegistry "typeF")).joint_position_command_
        = (NoidRobotHW.readPos exampleEnv 0 true (freshRegistry "typeF")).joint_position_ ∧
    (NoidRobotHW.readPos exampleEnv 0 true (freshRegistry "typeF")).prev_ref_positions_
        = (NoidRobotHW.readPos exampleEnv 0 true (freshRegistry "typeF")).joint_position_ ∧
    (NoidRobotHW.readPos exampleEnv 0 true (freshRegistry "typeF")).joint_position_.length
        = (freshRegistry "typeF").number_of_angles_ ∧
    (NoidRobotHW.readPos exampleEnv 0 true (freshRegistry "typeF")).initialized_flag_ = true :=
  ⟨by decide, by decide,
    C1_readPos_seeds_commands exampleEnv 0 true (freshRegistry "typeF") (by decide) (by decide)⟩

/-- C10. Unknown model zeroes the sensed state: for a robot model other than
"typeF" and "typeFCETy", whatever the raw stroke data, `readPos` sets the
sensed position of every joint to 0 (the freshly sized `act_positions` is never
filled, and 0 passes through `float` unchanged); on a registry not yet
initialized it therefore seeds every position command and previous-command
snapshot to 0. -/
theorem C10_unknown_model_zeroes (env : Env α κ σ) (period : Int) (update : Bool)
    (s : NoidRobotHW α κ σ) (hwf : WellFormed s)
    (hF : s.robot_model ≠ "typeF") (hC : s.robot_model ≠ "typeFCETy")
    (hz : env.toFloat 0 = 0) :
    (NoidRobotHW.readPos env period update s).joint_position_
        = List.replicate s.number_of_angles_ 0 ∧
    (s.initialized_flag_ = false →
      (NoidRobotHW.readPos env period update s).joint_position_command_
          = List.replicate s.number_of_angles_ 0 ∧
      (NoidRobotHW.readPos env period update s).prev_ref_positions_
          = List.replicate s.number_of_angles_ 0) := by
  obtain ⟨fn, fm, _⟩ := fetch_fields env update s
  have hact : actPositions env (fetch env update s) = List.replicate s.number_of_angles_ 0 := by
    simp only [actPositions, fm, fn, if_neg hF, if_neg hC]
  have hpos : (List.range s.number_of_angles_).map
      (fun j => env.toFloat ((actPositions env (fetch env update s)).getD j 0))
        = List.replicate s.number_of_angles_ 0 := by
    rw [hact]
    apply List.ext_getElem
    · simp
    · intro i h1 h2
      have hi : i < s.number_of_angles_ := by simpa using h1
      simp [List.getD_eq_getElem?_getD, hi, hz]
  rw [readPos_eq env period update s hwf]
  simp only []
  rw [hpos]
  constructor
  · cases s.initialized_flag_ <;> simp
  · intro h0
    simp [h0]

theorem C10_unknown_model_zeroes_witness :
    WellFormed (freshRegistry "typeG") ∧ (freshRegistry "typeG").robot_model ≠ "typeF" ∧
    (freshRegistry "typeG").robot_model ≠ "typeFCETy" ∧ exampleEnv.toFloat 0 = 0 ∧
    ((NoidRobotHW.readPos exampleEnv 0 true (freshRegistry "typeG")).joint_position_
        = List.replicate (freshRegistry "typeG").number_of_angles_ 0 ∧
    ((freshRegistry "typeG").initialized_flag_ = false →
      (NoidRobotHW.readPos exampleEnv 0 true (freshRegistry "typeG")).joint_position_command_
          = List.replicate (freshRegistry "typeG").number_of_angles_ 0 ∧
      (NoidRobotHW.readPos exampleEnv 0 true (freshRegistry "typeG")).prev_ref_positions_
          = List.replicate (freshRegistry "typeG").number_of_angles_ 0)) :=
  ⟨by decide, by decide, by decide, rfl,
    C10_unknown_model_zeroes exampleEnv 0 true (freshRegistry "typeG") (by decide) (by decide)
      (by decide) rfl⟩

/-- C7, as the code has it.  `readPos` overwrites the sensed position of every
joint whether or not it fetches: entry `j` becomes entry `j` of the converter
output, taken through `float`, where the converter is applied to the remapped
`raw_data_` of the upper controller followed by that of the lower one.  Without
fetch this is the `raw_data_` the controllers already hold, with fetch the one
left by `getPosition`.  Hence without fetch the sensed positions are unchanged
exactly when they already equal the decoding of the held raw data. -/
theorem C7_readPos_decodes_raw_data (env : Env α κ σ) (period : Int) (update : Bool)
    (s : NoidRobotHW α κ σ) (hwf : WellFormed s)
    (hmodel : s.robot_model = "typeF" ∨ s.robot_model = "typeFCETy") :
    let cu := if update then env.upper.getPosition s.controller_upper_ else s.controller_upper_
    let cl := if update then env.lower.getPosition s.controller_lower_ else s.controller_lower_
    let strokes :=
      env.upper.remapAeroToRos cu cu.raw_data_ (List.replicate cu.DOF_ 0)
        ++ env.lower.remapAeroToRos cl cl.raw_data_ (List.replicate cl.DOF_ 0)
    let angles :=
      if s.robot_model = "typeF" then
        env.typef_Stroke2Angle (List.replicate s.number_of_angles_ 0) strokes
      else env.typefcety_Stroke2Angle (List.replicate s.number_of_angles_ 0) strokes
    let decoded := (List.range s.number_of_angles_).map (fun j => env.toFloat (angles.getD j 0))
    (NoidRobotHW.readPos env period update s).joint_position_ = decoded ∧
    (update = false →
      ((NoidRobotHW.readPos env period update s).joint_position_ = s.joint_position_ ↔
        s.joint_position_ = decoded)) := by
  intro cu cl strokes angles decoded
  have hact : actPositions env (fetch env update s) = angles := by
    cases update
    · rcases hmodel with h | h
      · simp [actPositions, actStrokes, fetch, h, angles, strokes, cu, cl]
      · simp [actPositions, actStrokes, fetch, h, angles, strokes, cu, cl]
    · rcases hmodel with h | h
      · simp [actPositions, actStrokes, fetch, h, angles, strokes, cu, cl]
      · simp [actPositions, actStrokes, fetch, h, angles, strokes, cu, cl]
  have hpos : (NoidRobotHW.readPos env period update s).joint_position_ = decoded := by
    rw [readPos_eq env period update s hwf]
    simp only []
    rw [hact]
    cases s.initialized_flag_ <;> rfl
  refine ⟨hpos, ?_⟩
  intro _
  rw [hpos]
  exact eq_comm

theorem C7_readPos_decodes_raw_data_witness :
    WellFormed staleRegistry ∧
    (staleRegistry.robot_model = "typeF" ∨ staleRegistry.robot_model = "typeFCETy") ∧
    (NoidRobotHW.readPos exampleEnv 0 false staleRegistry).joint_position_ = [10, 4, 6] :=
  ⟨by decide, by decide,
    (C7_readPos_decodes_raw_data exampleEnv 0 false staleRegistry (by decide) (by decide)).1.trans
      (by decide)⟩

/-- C7 as stated fails: on the registry `staleRegistry` (sensed positions
`[2, 4, 6]`, upper `raw_data_` `[5, 2]`) a read phase without fetch changes the
sensed positions to `[10, 4, 6]`. -/
theorem C7_counterexample :
    staleRegistry.joint_position_ = [2, 4, 6] ∧
    (NoidRobotHW.readPos exampleEnv 0 false staleRegistry).joint_position_ = [10, 4, 6] ∧
    (NoidRobotHW.readPos exampleEnv 0 false staleRegistry).joint_position_
      ≠ staleRegistry.joint_position_ := by
  decide

end ReadPhase

section WritePhase

variable {α κ σ : Type} [Zero α] [BEq α]

/-- C8, as the code has it.  Every write phase ends, after both sends, with a
read phase whose fetch flag is false: no `getPosition` is issued, each
controller is left exactly as its `sendPosition` returned it, and the sensed
positions are decoded from the `raw_data_` the controllers then hold. -/
theorem C8_write_ends_with_decode_only_read (env : Env α κ σ) (period : Int)
    (s : NoidRobotHW α κ σ) :
    NoidRobotHW.write env period s
      = NoidRobotHW.readPos env period false (writeDispatch env period s) ∧
    (NoidRobotHW.write env period s).controller_upper_ =
      env.upper.sendPosition (writeLocals env period s).time_csec
        (writeLocals env period s).upper_strokes s.controller_upper_ ∧
    (NoidRobotHW.write env period s).controller_lower_ =
      env.lower.sendPosition (writeLocals env period s).time_csec
        (writeLocals env period s).lower_strokes s.controller_lower_ := by
  have h := readPos_controllers env period false (writeDispatch env period s)
  exact ⟨rfl, h.1, h.2⟩

/-- C2, as the code has it.  The mask has one entry per joint and is computed
on target positions, before and apart from the encoding: entry `j` is false iff
the new target `ref_positions[j]` compares equal to `prev_ref_positions_[j]`,
the target kept from the previous write (or seeded by the first read).  The
masked vector is `MaskRobotCommand` of the encoded strokes and this mask; with
that helper as the spec describes it, it holds the sentinel exactly at the
channels whose mask entry is false and the encoded value elsewhere.  After the
step `prev_ref_positions_` equals the target vector at every index, marked or
not, and it still does at the end of `write` on an initialized registry. -/
theorem C2_change_mask_on_targets (env : Env α κ σ) (sentinel : Int) (period : Int)
    (s : NoidRobotHW α κ σ) (hwf : WellFormed s)
    (hM : env.MaskRobotCommand = Spec.MaskRobotCommand sentinel) :
    (writeLocals env period s).mask_positions.length = s.number_of_angles_ ∧
    (∀ j, j < s.number_of_angles_ →
      ((writeLocals env period s).mask_positions.getD j true = false ↔
        ((writeLocals env period s).ref_positions.getD j 0
          == s.prev_ref_positions_.getD j 0) = true)) ∧
    (writeLocals env period s).snt_strokes.length
      = (writeLocals env period s).ref_strokes.length ∧
    (∀ i, i < (writeLocals env period s).ref_strokes.length →
      (writeLocals env period s).snt_strokes.getD i 0 =
        if (writeLocals env period s).mask_positions.getD i true = false then sentinel
        else (writeLocals env period s).ref_strokes.getD i 0) ∧
    (writeDispatch env period s).prev_ref_positions_
      = (writeLocals env period s).ref_positions ∧
    (s.initialized_flag_ = true →
      (NoidRobotHW.write env period s).prev_ref_positions_
        = (writeLocals env period s).ref_positions) := by
  obtain ⟨_, _, _, _, _, hprev⟩ := hwf
  have hmask := writeLocals_mask env period s (Nat.le_of_eq hprev.symm)
  have hsnt : (writeLocals env period s).snt_strokes =
      Spec.MaskRobotCommand sentinel (writeLocals env period s).ref_strokes
        (writeLocals env period s).mask_positions := by
    rw [← hM]
    rfl
  refine ⟨?_, ?_, ?_, ?_, writeDispatch_prev env period s hprev, ?_⟩
  · rw [hmask]
    simp
  · intro j hj
    rw [hmask, map_range_getD_apply _ _ _ _ hj]
    simp
  · rw [hsnt, spec_mask_length]
  · intro i hi
    rw [hsnt, spec_mask_getD _ _ _ _ hi]
  · intro hinit
    exact (write_prev env period s hprev hinit).1

theorem C2_change_mask_on_targets_witness :
    WellFormed snapshotRegistry ∧
    exampleEnv.MaskRobotCommand = Spec.MaskRobotCommand exampleSentinel ∧
    snapshotRegistry.prev_ref_positions_ = [100, 100, 100] ∧
    (writeLocals exampleEnv 0 snapshotRegistry).ref_positions = [100, 105, 100] ∧
    (writeLocals exampleEnv 0 snapshotRegistry).mask_positions = [false, true, false] ∧
    (writeLocals exampleEnv 0 snapshotRegistry).ref_strokes = [50, 52, 50] ∧
    (writeLocals exampleEnv 0 snapshotRegistry).snt_strokes
      = [exampleSentinel, 52, exampleSentinel] ∧
    (writeDispatch exampleEnv 0 snapshotRegistry).prev_ref_positions_ = [100, 105, 100] :=
  ⟨by decide, rfl, by decide, by decide, by decide, by decide, by decide,
    (C2_change_mask_on_targets exampleEnv exampleSentinel 0 snapshotRegistry (by decide)
      rfl).2.2.2.2.1.trans (by decide)⟩

/-- C2 as stated fails.  Two consecutive writes with targets `[100, 4, 6]` and
`[101, 4, 6]`: both encode to the strokes `[50, 2, 3]`, and channel 0 was sent
(as 50) by the first write; yet the second write marks channel 0 to send and
transmits 50 again, and the snapshot it leaves holds the targets
`[101, 4, 6]`, not the encoded vector. -/
theorem C2_counterexample :
    (writeLocals exampleEnv 0 firstCycle).snt_strokes
      = [50, exampleSentinel, exampleSentinel] ∧
    (writeLocals exampleEnv 0 firstCycle).ref_strokes = [50, 2, 3] ∧
    (writeLocals exampleEnv 0 secondCycle).ref_strokes = [50, 2, 3] ∧
    (writeLocals exampleEnv 0 secondCycle).mask_positions = [true, false, false] ∧
    (writeLocals exampleEnv 0 secondCycle).snt_strokes
      = [50, exampleSentinel, exampleSentinel] ∧
    ¬ ((writeLocals exampleEnv 0 secondCycle).mask_positions.getD 0 true = false ↔
        (writeLocals exampleEnv 0 secondCycle).ref_strokes.getD 0 0
          = (writeLocals exampleEnv 0 firstCycle).ref_strokes.getD 0 0) ∧
    (NoidRobotHW.write exampleEnv 0 secondCycle).prev_ref_positions_ = [101, 4, 6] ∧
    (NoidRobotHW.write exampleEnv 0 secondCycle).prev_ref_positions_
      ≠ (writeLocals exampleEnv 0 secondCycle).ref_strokes := by
  decide

/-- C6, as the code has it.  For a joint whose control method is `POSITION` the
target is its position command (as `enforceLimits` left it).  For a joint with
any other control method `write` assigns nothing to the target, and the target
vector `ref_positions` is created anew, zeroed, in every cycle: the target of
such a joint is 0.  That target is what the encoder receives and what the step
stores in `prev_ref_positions_`. -/
theorem C6_control_method_dispatch (env : Env α κ σ) (period : Int)
    (s : NoidRobotHW α κ σ) (j : Nat) (hj : j < s.number_of_angles_) :
    (s.joint_control_methods_[j]? = some ControlMethod.POSITION →
      (writeLocals env period s).ref_positions.getD j 0
        = (env.enforceLimits period s.pj_sat_interface_ s.joint_position_command_).2.getD j 0) ∧
    (s.joint_control_methods_[j]? ≠ some ControlMethod.POSITION →
      (writeLocals env period s).ref_positions.getD j 0 = 0) ∧
    (s.prev_ref_positions_.length = s.number_of_angles_ →
      (writeDispatch env period s).prev_ref_positions_.getD j 0
        = (writeLocals env period s).ref_positions.getD j 0) := by
  refine ⟨?_, ?_, ?_⟩
  · intro h
    rw [writeLocals_ref_positions, map_range_getD_apply _ _ _ _ hj, if_pos h]
    rfl
  · intro h
    rw [writeLocals_ref_positions, map_range_getD_apply _ _ _ _ hj, if_neg h]
  · intro hp
    rw [writeDispatch_prev env period s hp]

theorem C6_control_method_dispatch_witness :
    1 < velocityRegistry.number_of_angles_ ∧
    velocityRegistry.joint_control_methods_[1]? = some ControlMethod.VELOCITY ∧
    (writeLocals exampleEnv 0 velocityRegistry).ref_positions.getD 1 0 = 0 :=
  ⟨by decide, by decide,
    (C6_control_method_dispatch exampleEnv 0 velocityRegistry 1 (by decide)).2.1 (by decide)⟩

/-- C6 as stated fails.  Joint 1 of `velocityRegistry` has the control method
`VELOCITY`, command 4 and previous target 4.  The write phase hands the target
0 to the encoder for it (stroke 0), marks it to send, and stores 0 as its
previous target: the target is not the value it had before the cycle. -/
theorem C6_counterexample :
    velocityRegistry.joint_control_methods_[1]? = some ControlMethod.VELOCITY ∧
    velocityRegistry.joint_position_command_ = [2, 4, 6] ∧
    velocityRegistry.prev_ref_positions_ = [2, 4, 6] ∧
    (writeLocals exampleEnv 0 velocityRegistry).ref_positions = [2, 0, 6] ∧
    (writeLocals exampleEnv 0 velocityRegistry).ref_strokes = [1, 0, 3] ∧
    (writeLocals exampleEnv 0 velocityRegistry).mask_positions = [false, true, false] ∧
    (NoidRobotHW.write exampleEnv 0 velocityRegistry).prev_ref_positions_ = [2, 0, 6] := by
  decide

/-- C8 as stated fails.  On `movedRegistry` the upper device would report
`[7, 2]` on a fetch.  After `write` the device has served no further
`getPosition` (still 1), `raw_data_` still holds `[1, 2]` and the sensed
positions are decoded from it; a read phase with fetch after the sends would
have given a second `getPosition` and the sensed positions `[14, 4, 6]`. -/
theorem C8_counterexample :
    movedRegistry.controller_upper_.port.fetches = 1 ∧
    (NoidRobotHW.write exampleEnv 0 movedRegistry).controller_upper_.port.fetches = 1 ∧
    (NoidRobotHW.write exampleEnv 0 movedRegistry).controller_upper_.raw_data_ = [1, 2] ∧
    (NoidRobotHW.write exampleEnv 0 movedRegistry).joint_position_ = [2, 4, 6] ∧
    (NoidRobotHW.readPos exampleEnv 0 true
      (writeDispatch exampleEnv 0 movedRegistry)).controller_upper_.port.fetches = 2 ∧
    (NoidRobotHW.readPos exampleEnv 0 true
      (writeDispatch exampleEnv 0 movedRegistry)).joint_position_ = [14, 4, 6] ∧
    NoidRobotHW.write exampleEnv 0 movedRegistry
      ≠ NoidRobotHW.readPos exampleEnv 0 true (writeDispatch exampleEnv 0 movedRegistry) := by
  refine ⟨by decide, by decide, by decide, by decide, by decide, by decide, ?_⟩
  intro h
  have h2 := congrArg (fun t => t.joint_position_) h
  revert h2
  decide

/-- C9, as the code has it.  The first read phase leaves the previous-command
snapshot set: like the commands, it equals the sensed positions.  The first
write phase therefore marks joint `j` to send iff its target compares different
from the sensed position the registry was seeded with.  In particular, when the
commands still equal the sensed positions (every joint `POSITION`, the limits
leaving the commands as they are, the values comparing equal to themselves),
the mask of the first write is entirely false. -/
theorem C9_first_write_mask (env : Env α κ σ) (p0 p1 : Int) (update : Bool)
    (s : NoidRobotHW α κ σ) (hwf : WellFormed s) (hinit : s.initialized_flag_ = false) :
    (NoidRobotHW.readPos env p0 update s).prev_ref_positions_
      = (NoidRobotHW.readPos env p0 update s).joint_position_ ∧
    (writeLocals env p1 (NoidRobotHW.readPos env p0 update s)).mask_positions =
      (List.range s.number_of_angles_).map (fun j =>
        !((writeLocals env p1 (NoidRobotHW.readPos env p0 update s)).ref_positions.getD j 0
            == (NoidRobotHW.readPos env p0 update s).joint_position_.getD j 0)) ∧
    ((∀ j, j < s.number_of_angles_ →
          s.joint_control_methods_[j]? = some ControlMethod.POSITION) →
      (env.enforceLimits p1 s.pj_sat_interface_
          (NoidRobotHW.readPos env p0 update s).joint_position_command_).2
        = (NoidRobotHW.readPos env p0 update s).joint_position_command_ →
      (∀ x ∈ (NoidRobotHW.readPos env p0 update s).joint_position_, (x == x) = true) →
      (writeLocals env p1 (NoidRobotHW.readPos env p0 update s)).mask_positions
        = List.replicate s.number_of_angles_ false) := by
  obtain ⟨hcmd, hprev, hlen, _, hn, hm, hpj⟩ := readPos_seeds env p0 update s hwf hinit
  have hmask := writeLocals_mask env p1 (NoidRobotHW.readPos env p0 update s)
    (by rw [hn, hprev, hlen])
  rw [hn, hprev] at hmask
  refine ⟨hprev, hmask, ?_⟩
  intro hpos hlim hrefl
  rw [hmask, writeLocals_ref_positions, hn, hm]
  have henf : (enforce env p1 (NoidRobotHW.readPos env p0 update s)).joint_position_command_
      = (NoidRobotHW.readPos env p0 update s).joint_position_ := by
    show (env.enforceLimits p1 (NoidRobotHW.readPos env p0 update s).pj_sat_interface_
      (NoidRobotHW.readPos env p0 update s).joint_position_command_).2 = _
    rw [hpj, hlim, hcmd]
  rw [henf]
  apply List.ext_getElem
  · simp
  · intro i h1 h2
    have hi : i < s.number_of_angles_ := by simpa using h1
    have hi2 : i < (NoidRobotHW.readPos env p0 update s).joint_position_.length := by
      rw [hlen]
      exact hi
    have hx := hrefl _ (List.getElem_mem hi2)
    simp [List.getD_eq_getElem?_getD, List.getElem?_eq_getElem hi2, hx, hi, hpos i hi]

theorem C9_first_write_mask_witness :
    WellFormed (freshRegistry "typeF") ∧ (freshRegistry "typeF").initialized_flag_ = false ∧
    (NoidRobotHW.readPos exampleEnv 0 true (freshRegistry "typeF")).prev_ref_positions_
      = [2, 4, 6] :=
  ⟨by decide, by decide,
    (C9_first_write_mask exampleEnv 0 0 true (freshRegistry "typeF") (by decide)
      (by decide)).1.trans (by decide)⟩

/-- C9 as stated fails.  Three joints, two upper and one lower, sensed at
`[2, 4, 6]` by the read phase of `init`: the commands and the previous-command
snapshot both are `[2, 4, 6]`, and the first write phase, with the commands
still equal to the sensed positions, marks no channel to send. -/
theorem C9_counterexample :
    seededRegistry.joint_position_ = [2, 4, 6] ∧
    seededRegistry.joint_position_command_ = [2, 4, 6] ∧
    seededRegistry.prev_ref_positions_ = [2, 4, 6] ∧
    (writeLocals exampleEnv 0 seededRegistry).mask_positions = [false, false, false] ∧
    (writeLocals exampleEnv 0 seededRegistry).mask_positions ≠ [true, true, true] := by
  decide

end WritePhase

end noid_robot_hardware
